import Mathlib

/-!
A shallow embedding of `WooCommerceAPI.go`.

The Go file `WooCommerceAPI.go` is a small REST client: a constructor, one
`request` method, four wrappers (`Get`, `Post`, `Put`, `Delete`) and the
pagination helper `GetAllProducts`.

Conventions of the embedding:

* a Go `string` and a Go `[]byte` are both byte sequences, `List (Fin 256)`;
  a nil slice is the empty list;
* a Go `error` is represented by its message;
* a Go function returning `(T, error)` returns a pair `T × Option GoError`;
* the network is a state `σ` threaded through every call, together with the
  list of requests handed to the HTTP client so far (`World`);
* the standard library (`fmt`, `net/url`, `net/http`, `encoding/base64`) is
  transcribed as far as `request` depends on it; `encoding/json`, the
  validation done by `NewRequest` and the way it reads the scheme, host, path
  and fragment of a URL text are parameters (`Deps`);
* the page counter of `GetAllProducts` is an unbounded integer: every
  iteration that increments it has appended at least one record to a slice,
  so it cannot reach `2^63` on a real machine.
-/

namespace GoWooCommerceAPI

/-! ## Bytes, strings, `fmt` -/

/-- One byte. -/
abbrev Byte := Fin 256

/-- Go `string` and `[]byte`: a finite sequence of bytes. -/
abbrev GoString := List Byte

/-- The byte of an ASCII character. -/
def ch (c : Char) : Byte := Fin.ofNat c.toNat

/-- The bytes of an ASCII string literal of the source. -/
def lit (s : String) : GoString := s.toList.map ch

/-- Verb `%d` of `fmt.Sprintf` on an `int`: decimal digits, `-` first when negative. -/
def fmtInt (n : Int) : GoString := lit (toString n)

/-- Go `error`, represented by the text its `Error()` method returns. -/
structure GoError where
  Error : GoString
deriving DecidableEq

/-- Go `strings.Cut` with a one-byte separator: the text before the first
separator, the text after it, and whether the separator was found. -/
def cut (sep : Byte) : GoString → GoString × GoString × Bool
  | [] => ([], [], false)
  | c :: cs =>
    if c = sep then ([], cs, true)
    else
      let r := cut sep cs
      (c :: r.1, r.2.1, r.2.2)

/-- Byte-wise lexicographic `<` on Go strings. -/
def strLess : GoString → GoString → Bool
  | _, [] => false
  | [], _ :: _ => true
  | a :: as, b :: bs => if a.val < b.val then true else if b.val < a.val then false else strLess as bs

/-! ## `encoding/base64`, standard alphabet with padding -/

/-- The base64 alphabet `A-Z a-z 0-9 + /`, by 6-bit value. -/
def encChar (i : Nat) : Byte :=
  if i < 26 then Fin.ofNat (65 + i)
  else if i < 52 then Fin.ofNat (97 + (i - 26))
  else if i < 62 then Fin.ofNat (48 + (i - 52))
  else if i = 62 then ch '+'
  else ch '/'

/-- The 6-bit value of a base64 alphabet byte, `none` for any other byte. -/
def decChar (c : Byte) : Option Nat :=
  if 65 ≤ c.val ∧ c.val ≤ 90 then some (c.val - 65)
  else if 97 ≤ c.val ∧ c.val ≤ 122 then some (c.val - 97 + 26)
  else if 48 ≤ c.val ∧ c.val ≤ 57 then some (c.val - 48 + 52)
  else if c = ch '+' then some 62
  else if c = ch '/' then some 63
  else none

/-- The padding byte `=`. -/
def pad : Byte := ch '='

/-- Go `base64.StdEncoding.EncodeToString`: three bytes become four alphabet
bytes, a final group of one or two bytes is padded with `=`. -/
def b64encode : GoString → GoString
  | [] => []
  | [a] => [encChar (a.val / 4), encChar (a.val % 4 * 16), pad, pad]
  | [a, b] =>
    [encChar (a.val / 4), encChar (a.val % 4 * 16 + b.val / 16), encChar (b.val % 16 * 4), pad]
  | a :: b :: c :: rest =>
    encChar (a.val / 4) :: encChar (a.val % 4 * 16 + b.val / 16)
      :: encChar (b.val % 16 * 4 + c.val / 64) :: encChar (c.val % 64) :: b64encode rest

/-- Go `base64.StdEncoding.DecodeString` on text without line breaks: groups
of four alphabet bytes become three bytes, padding is accepted in the last
group only, any other byte is an error (`none`). -/
def b64decode : GoString → Option GoString
  | [] => some []
  | a :: b :: c :: d :: rest =>
    if d = pad then
      if rest ≠ [] then none
      else if c = pad then
        match decChar a, decChar b with
        | some x, some y => some [Fin.ofNat (x * 4 + y / 16)]
        | _, _ => none
      else
        match decChar a, decChar b, decChar c with
        | some x, some y, some z =>
          some [Fin.ofNat (x * 4 + y / 16), Fin.ofNat (y % 16 * 16 + z / 4)]
        | _, _, _ => none
    else
      match decChar a, decChar b, decChar c, decChar d, b64decode rest with
      | some x, some y, some z, some u, some tl =>
        some (Fin.ofNat (x * 4 + y / 16) :: Fin.ofNat (y % 16 * 16 + z / 4)
          :: Fin.ofNat (z % 4 * 64 + u) :: tl)
      | _, _, _, _, _ => none
  | _ => none

/-! ## `net/url` -/

/-- Go `url.URL`, as far as `request` touches it. `RawQuery` and
`ForceQuery` are the fields of that name. `Location` stands for every other
field (scheme, user, host, path, fragment): it is the text the URL is written
as once its query is left out. -/
structure URL where
  Location : GoString
  ForceQuery : Bool
  RawQuery : GoString
deriving DecidableEq

/-- Go `url.Parse` on an accepted URL. The query is what follows the first
`?` of the text in front of the first `#`; `ForceQuery` is set when that `?`
ends the text. How the rest of the text is read (lower-cased scheme, host,
decoded and re-escaped path, fragment) is left to `locate`. -/
def parseURL (locate : GoString → GoString) (rawURL : GoString) : URL :=
  let f := cut (ch '#') rawURL
  let q := cut (ch '?') f.1
  { Location := locate rawURL
    ForceQuery := q.2.2 && q.2.1.isEmpty
    RawQuery := q.2.1 }

/-- Bytes left alone by Go `url.QueryEscape`: letters, digits, `-`, `_`, `.`, `~`. -/
def unreserved (c : Byte) : Bool :=
  (97 ≤ c.val && c.val ≤ 122) || (65 ≤ c.val && c.val ≤ 90) || (48 ≤ c.val && c.val ≤ 57)
    || c = ch '-' || c = ch '_' || c = ch '.' || c = ch '~'

/-- One upper-case hexadecimal digit. -/
def upperhex (n : Nat) : Byte :=
  if n < 10 then Fin.ofNat (48 + n) else Fin.ofNat (65 + (n - 10))

/-- Go `url.QueryEscape`: a space becomes `+`, every byte that is not
unreserved becomes `%XX`. -/
def QueryEscape (s : GoString) : GoString :=
  s.flatMap fun c =>
    if c = ch ' ' then [ch '+']
    else if unreserved c then [c]
    else [ch '%', upperhex (c.val / 16), upperhex (c.val % 16)]

/-- Go `ishex`. -/
def ishex (c : Byte) : Bool :=
  (48 ≤ c.val && c.val ≤ 57) || (97 ≤ c.val && c.val ≤ 102) || (65 ≤ c.val && c.val ≤ 70)

/-- Go `unhex`. -/
def unhex (c : Byte) : Nat :=
  if 48 ≤ c.val ∧ c.val ≤ 57 then c.val - 48
  else if 97 ≤ c.val ∧ c.val ≤ 102 then c.val - 97 + 10
  else if 65 ≤ c.val ∧ c.val ≤ 70 then c.val - 65 + 10
  else 0

/-- Go `url.QueryUnescape`: `%XX` becomes a byte, `+` a space; a `%` not
followed by two hexadecimal digits is an error (`none`). -/
def QueryUnescape : GoString → Option GoString
  | [] => some []
  | c :: cs =>
    if c = ch '%' then
      match cs with
      | h :: l :: rest =>
        if ishex h && ishex l then
          (QueryUnescape rest).map fun t => Fin.ofNat (unhex h * 16 + unhex l) :: t
        else none
      | _ => none
    else (QueryUnescape cs).map fun t => (if c = ch '+' then ch ' ' else c) :: t

/-- Go `url.Values`, a `map[string][]string`, represented by its entries in
increasing key order (the order in which `Encode` visits them). -/
abbrev Values := List (GoString × List GoString)

/-- Go `url.Values.Add`: append the value to the values of the key. -/
def Values.Add : Values → GoString → GoString → Values
  | [], k, v => [(k, [v])]
  | (k', vs) :: rest, k, v =>
    if k = k' then (k', vs ++ [v]) :: rest
    else if strLess k k' then (k, [v]) :: (k', vs) :: rest
    else (k', vs) :: Values.Add rest k v

/-- The key/value pairs of the map, in the order `Encode` writes them. -/
def Values.pairs (m : Values) : List (GoString × GoString) :=
  m.flatMap fun e => e.2.map fun v => (e.1, v)

/-- The pieces of a query string between `&` separators. -/
def splitAmp : GoString → List GoString
  | [] => [[]]
  | c :: cs =>
    if c = ch '&' then [] :: splitAmp cs
    else
      match splitAmp cs with
      | [] => [[c]]
      | s :: ss => (c :: s) :: ss

/-- One round of the loop of Go `url.parseQuery`: a piece with a `;`, an
empty piece, or a piece whose key or value does not unescape, is skipped. -/
def parsePiece (m : Values) (piece : GoString) : Values :=
  if ch ';' ∈ piece then m
  else if piece = [] then m
  else
    let kv := cut (ch '=') piece
    match QueryUnescape kv.1, QueryUnescape kv.2.1 with
    | some key, some value => m.Add key value
    | _, _ => m

/-- Go `url.URL.Query`: `ParseQuery` of `RawQuery`, its error dropped. -/
def URL.Query (u : URL) : Values :=
  (splitAmp u.RawQuery).foldl parsePiece []

/-- The pieces joined by `&`. -/
def joinAmp : List GoString → GoString
  | [] => []
  | [s] => s
  | s :: t :: ss => s ++ ch '&' :: joinAmp (t :: ss)

/-- The text `key=value` of one pair, both sides escaped. -/
def pairText (kv : GoString × GoString) : GoString :=
  QueryEscape kv.1 ++ ch '=' :: QueryEscape kv.2

/-- Go `url.Values.Encode`: the pairs as `key=value`, sorted by key, joined by `&`. -/
def Values.Encode (m : Values) : GoString :=
  joinAmp (m.pairs.map pairText)

/-! ## `net/http` -/

/-- Go `http.Request`, as far as `request` touches it. The header map is
represented by its entries. -/
structure Request where
  Method : GoString
  URL : URL
  Header : List (GoString × GoString)
  Body : GoString
deriving DecidableEq

/-- Go `http.Response`: the status code and the outcome of reading the body
to its end (`ioutil.ReadAll(resp.Body)`). -/
structure Response where
  StatusCode : Int
  Body : Except GoError GoString

/-- Go `http.Header.Set` on a key in canonical form: the entry of the key is
replaced. -/
def headerSet (h : List (GoString × GoString)) (key value : GoString) :
    List (GoString × GoString) :=
  h.filter (fun e => e.1 ≠ key) ++ [(key, value)]

/-- Go `http.Header.Get` on a key in canonical form. -/
def headerGet (h : List (GoString × GoString)) (key : GoString) : Option GoString :=
  (h.find? fun e => e.1 = key).map fun e => e.2

/-- Go `basicAuth` of `net/http`: base64 of `username:password`. -/
def basicAuth (username password : GoString) : GoString :=
  b64encode (username ++ lit ":" ++ password)

/-- Go `http.Request.SetBasicAuth`. -/
def Request.SetBasicAuth (r : Request) (username password : GoString) : Request :=
  { r with
    Header := headerSet r.Header (lit "Authorization") (lit "Basic " ++ basicAuth username password) }

/-- Go `http.Header.Set` through `req.Header.Set`. -/
def Request.HeaderSet (r : Request) (key value : GoString) : Request :=
  { r with Header := headerSet r.Header key value }

/-- The libraries `request` and `GetAllProducts` call and that are left
abstract: `json.Marshal`, `json.Unmarshal` into a slice of records, the check
by which `NewRequest` rejects a method or a URL, and `Locate`, the way
`NewRequest` reads a URL text apart from its query: `Locate text` is what the
URL built from `text` is written as once its query is left out (the scheme
lower-cased, the path escaped, and so on). -/
structure Deps (Data Record : Type) where
  Marshal : Data → Except GoError GoString
  Unmarshal : GoString → Except GoError (List Record)
  NewRequestError : GoString → GoString → Option GoError
  Locate : GoString → GoString

/-- Go `retryablehttp.NewRequest`: an accepted method and URL give a request
with an empty header; an empty method means `GET`. -/
def NewRequest {Data Record : Type} (L : Deps Data Record) (method url body : GoString) :
    Except GoError Request :=
  match L.NewRequestError method url with
  | some err => .error err
  | none =>
    .ok { Method := if method = [] then lit "GET" else method
          URL := parseURL L.Locate url
          Header := []
          Body := body }

/-- Go `retryablehttp.Client`: the timeout of the inner HTTP client, the retry
ceiling, the retry policy, the error built when the engine gives up, and one
attempt of the inner HTTP client against the network state. -/
structure RetryClient (σ : Type) where
  Timeout : Int
  RetryMax : Int
  CheckRetry : Except GoError Response → Bool
  GiveUp : Request → Nat → Except GoError Response → GoError
  HTTPClientDo : Request → σ → Except GoError Response × σ

/-- Modelled from the spec: the retry loop of `retryablehttp.Client.Do`, a
dependency whose code is not part of the repository. An attempt the policy
calls transient is repeated while retries remain; when none remains the
engine gives up with an error; any other outcome is returned as it is.
`remain` counts the retries left, `i` the attempts already made. -/
def RetryClient.attempts {σ : Type} (c : RetryClient σ) (req : Request) :
    Nat → Nat → σ → Except GoError Response × σ
  | 0, i, s =>
    let r := c.HTTPClientDo req s
    if c.CheckRetry r.1 then (.error (c.GiveUp req (i + 1) r.1), r.2) else r
  | remain + 1, i, s =>
    let r := c.HTTPClientDo req s
    if c.CheckRetry r.1 then RetryClient.attempts c req remain (i + 1) r.2 else r

/-- Modelled from the spec: `retryablehttp.Client.Do`, at most `RetryMax`
retries after the first attempt. -/
def RetryClient.Do {σ : Type} (c : RetryClient σ) (req : Request) (s : σ) :
    Except GoError Response × σ :=
  c.attempts req c.RetryMax.toNat 0 s

/-! ## `WooCommerceAPI.go` -/

/-- The network state and the requests handed to `httpClient.Do` so far,
oldest first. -/
structure World (σ : Type) where
  net : σ
  sent : List Request
deriving DecidableEq

/-- Go `type WooCommerceAPI struct`. -/
structure WooCommerceAPI (σ : Type) where
  url : GoString
  auth : GoString
  httpClient : RetryClient σ

/-- Go `NewWooCommerceAPI`. `newClient` is what `retryablehttp.NewClient()`
returns. -/
def NewWooCommerceAPI {σ : Type} (newClient : RetryClient σ)
    (url consumerKey consumerSecret : GoString) (timeout : Int) (maxRetries : Int) :
    WooCommerceAPI σ :=
  let client := { newClient with Timeout := timeout, RetryMax := maxRetries }
  { url := url
    auth := consumerKey ++ lit ":" ++ consumerSecret
    httpClient := client }

/-- The first part of Go `request` (up to `req.URL.RawQuery = q.Encode()`):
the request that is handed to `httpClient.Do`, or the error of `json.Marshal`
or `NewRequest`. `params` lists the entries of the Go map in the order the
`range` loop visits them. -/
def WooCommerceAPI.buildRequest {σ Data Record : Type} (L : Deps Data Record)
    (api : WooCommerceAPI σ) (method endpoint : GoString) (data : Option Data)
    (params : List (GoString × GoString)) : Except GoError Request :=
  let url := api.url ++ lit "/wp-json/wc/v3/" ++ endpoint
  match (match data with
    | some d => L.Marshal d
    | none => .ok []) with
  | .error err => .error err
  | .ok reqBody =>
    match NewRequest L method url reqBody with
    | .error err => .error err
    | .ok req =>
      let req := req.SetBasicAuth api.auth []
      let req := req.HeaderSet (lit "Content-Type") (lit "application/json")
      let req := req.HeaderSet (lit "User-Agent") (lit "Mozilla/5.0 (Windows NT 10.0; Win64; x64) AppleWebKit/537.36 (KHTML, like Gecko) Chrome/91.0.4472.124 Safari/537.36")
      let q := params.foldl (fun q kv => q.Add kv.1 kv.2) req.URL.Query
      .ok { req with URL := { req.URL with RawQuery := q.Encode } }

/-- Go `request`. -/
def WooCommerceAPI.request {σ Data Record : Type} (L : Deps Data Record)
    (api : WooCommerceAPI σ) (method endpoint : GoString) (data : Option Data)
    (params : List (GoString × GoString)) (w : World σ) :
    (GoString × Option GoError) × World σ :=
  match api.buildRequest L method endpoint data params with
  | .error err => (([], some err), w)
  | .ok req =>
    let r := api.httpClient.Do req w.net
    let w1 : World σ := { net := r.2, sent := w.sent ++ [req] }
    match r.1 with
    | .error err => (([], some ⟨lit "API request failed: " ++ err.Error⟩), w1)
    | .ok resp =>
      match resp.Body with
      | .error err => (([], some err), w1)
      | .ok body =>
        if resp.StatusCode ≥ 400 then
          (([], some ⟨lit "API request failed with status code " ++ fmtInt resp.StatusCode
            ++ lit ": " ++ body⟩), w1)
        else ((body, none), w1)

/-- Go `Get`. -/
def WooCommerceAPI.Get {σ Data Record : Type} (L : Deps Data Record) (api : WooCommerceAPI σ)
    (endpoint : GoString) (params : List (GoString × GoString)) (w : World σ) :
    (GoString × Option GoError) × World σ :=
  api.request L (lit "GET") endpoint none params w

/-- Go `Post`. -/
def WooCommerceAPI.Post {σ Data Record : Type} (L : Deps Data Record) (api : WooCommerceAPI σ)
    (endpoint : GoString) (data : Option Data) (w : World σ) :
    (GoString × Option GoError) × World σ :=
  api.request L (lit "POST") endpoint data [] w

/-- Go `Put`. -/
def WooCommerceAPI.Put {σ Data Record : Type} (L : Deps Data Record) (api : WooCommerceAPI σ)
    (endpoint : GoString) (data : Option Data) (w : World σ) :
    (GoString × Option GoError) × World σ :=
  api.request L (lit "PUT") endpoint data [] w

/-- Go `Delete`. -/
def WooCommerceAPI.Delete {σ Data Record : Type} (L : Deps Data Record) (api : WooCommerceAPI σ)
    (endpoint : GoString) (w : World σ) : (GoString × Option GoError) × World σ :=
  api.request L (lit "DELETE") endpoint none [] w

/-- The variables of the `for` loop of `GetAllProducts`, with the world. -/
structure LoopState (σ Record : Type) where
  products : List Record
  page : Int
  world : World σ

/-- What `GetAllProducts` returns, with the world it leaves behind. -/
abbrev Returned (σ Record : Type) := (List Record × Option GoError) × World σ

/-- The parameter map built at the top of the loop body. -/
def pageParams (perPage page : Int) : List (GoString × GoString) :=
  [(lit "per_page", fmtInt perPage), (lit "page", fmtInt page)]

/-- One pass through the body of the `for` loop of `GetAllProducts`: either
the variables for the next pass, or the values returned. -/
def WooCommerceAPI.loopBody {σ Data Record : Type} (L : Deps Data Record)
    (api : WooCommerceAPI σ) (perPage : Int) (st : LoopState σ Record) :
    LoopState σ Record ⊕ Returned σ Record :=
  let r := api.Get L (lit "products") (pageParams perPage st.page) st.world
  match r.1.2 with
  | some err => .inr (([], some err), r.2)
  | none =>
    match L.Unmarshal r.1.1 with
    | .error err => .inr (([], some err), r.2)
    | .ok pageProducts =>
      if pageProducts.length = 0 then .inr ((st.products, none), r.2)
      else .inl { products := st.products ++ pageProducts, page := st.page + 1, world := r.2 }

/-- The `for` loop of `GetAllProducts`, cut off after `fuel` passes. -/
def WooCommerceAPI.loop {σ Data Record : Type} (L : Deps Data Record)
    (api : WooCommerceAPI σ) (perPage : Int) :
    Nat → LoopState σ Record → LoopState σ Record ⊕ Returned σ Record
  | 0, st => .inl st
  | fuel + 1, st =>
    match api.loopBody L perPage st with
    | .inl st1 => WooCommerceAPI.loop L api perPage fuel st1
    | .inr r => .inr r

/-- Go `GetAllProducts`, with a bound on the number of passes through the
loop: `none` when the loop is still running after `fuel` passes. -/
def WooCommerceAPI.GetAllProducts {σ Data Record : Type} (L : Deps Data Record)
    (api : WooCommerceAPI σ) (perPage : Int) (fuel : Nat) (w : World σ) :
    Option (Returned σ Record) :=
  match api.loop L perPage fuel { products := [], page := 1, world := w } with
  | .inr r => some r
  | .inl _ => none

/-- The call for page `k + 1` of `products` is served: the request `reqs k`
is built, and from network state `st k` the client answers it with a status
below 400 and a body that reads as `bodies k`, leaving state `st (k + 1)`. -/
def Serves {σ Data Record : Type} (L : Deps Data Record) (api : WooCommerceAPI σ)
    (perPage : Int) (st : Nat → σ) (reqs : Nat → Request) (bodies : Nat → GoString)
    (k : Nat) : Prop :=
  api.buildRequest L (lit "GET") (lit "products") none (pageParams perPage (k + 1))
      = .ok (reqs k)
  ∧ ∃ resp : Response, api.httpClient.Do (reqs k) (st k) = (.ok resp, st (k + 1))
      ∧ resp.Body = .ok (bodies k) ∧ resp.StatusCode < 400

/-! ## Test doubles

Concrete libraries, transports and clients on which the statements below are
evaluated. The network state is the number of attempts made so far. -/

/-- Go `url.Values.Get`: the first value of the key, empty when there is none. -/
def valuesGet (m : Values) (key : GoString) : GoString :=
  match m.find? fun e => e.1 = key with
  | some (_, v :: _) => v
  | _ => []

/-- The number written by a string of decimal digits. -/
def parseNat (s : GoString) : Nat :=
  s.foldl (fun n c => 10 * n + (c.val - 48)) 0

/-- A library double: a record is one byte of the body, a body holding `!`
does not decode, every payload encodes as `{}`, every URL is accepted and is
located by its text in front of the first `?` or `#`, kept as written. Go
writes a URL text back this way when its scheme is in lower case and its host
and path need no escaping, as in `https://example.com/wp-json/wc/v3/products`,
the only kind of text the doubles are used on. -/
def mockDeps : Deps Unit Byte where
  Marshal := fun _ => .ok (lit "\x7b\x7d")
  Unmarshal := fun b => if ch '!' ∈ b then .error ⟨lit "invalid character"⟩ else .ok b
  NewRequestError := fun _ _ => none
  Locate := fun text => (cut (ch '?') (cut (ch '#') text).1).1

/-- A server double answering every request with the given status and body. -/
def constServer (status : Int) (body : GoString) :
    Request → Nat → Except GoError Response × Nat :=
  fun _ n => (.ok ⟨status, .ok body⟩, n + 1)

/-- A server double holding the pages of a collection: the request for page
`k` is answered with status 200 and the `k`-th body, with an empty body past
the last page. -/
def pageServer (pages : List GoString) : Request → Nat → Except GoError Response × Nat :=
  fun req n =>
    (.ok ⟨200, .ok (pages.getD (parseNat (valuesGet req.URL.Query (lit "page")) - 1) [])⟩, n + 1)

/-- A transport double refusing the first `failures` attempts and answering
200 `ok` afterwards. -/
def flakyTransport (failures : Nat) : Request → Nat → Except GoError Response × Nat :=
  fun _ n =>
    if n < failures then (.error ⟨lit "connection refused"⟩, n + 1)
    else (.ok ⟨200, .ok (lit "ok")⟩, n + 1)

/-- A server double holding the pages of a collection and failing past the
last one with the given status and body. -/
def brokenServer (pages : List GoString) (status : Int) (body : GoString) :
    Request → Nat → Except GoError Response × Nat :=
  fun req n =>
    match pages.get? (parseNat (valuesGet req.URL.Query (lit "page")) - 1) with
    | some b => (.ok ⟨200, .ok b⟩, n + 1)
    | none => (.ok ⟨status, .ok body⟩, n + 1)

/-- A retry policy double: transport errors and statuses 429 and 5xx are transient. -/
def mockCheckRetry : Except GoError Response → Bool
  | .error _ => true
  | .ok resp => resp.StatusCode = 429 || resp.StatusCode ≥ 500

/-- A client double around a transport, as `retryablehttp.NewClient()` would
return it. -/
def mockClient (transport : Request → Nat → Except GoError Response × Nat) : RetryClient Nat where
  Timeout := 0
  RetryMax := 4
  CheckRetry := mockCheckRetry
  GiveUp := fun _ _ _ => ⟨lit "giving up"⟩
  HTTPClientDo := transport

/-- The client of `main`, built on a transport double, with retry ceiling 3. -/
def mockAPI (transport : Request → Nat → Except GoError Response × Nat) : WooCommerceAPI Nat :=
  NewWooCommerceAPI (mockClient transport) (lit "https://example.com") (lit "consumer_key")
    (lit "consumer_secret") 10000000000 3

/-- The request `mockAPI` builds for a call without payload. -/
def mockRequest (method endpoint : GoString) (params : List (GoString × GoString)) : Request :=
  match (mockAPI (constServer 200 [])).buildRequest mockDeps method endpoint none params with
  | .ok req => req
  | .error _ => ⟨[], ⟨[], false, []⟩, [], []⟩

/-! ## `request`: what comes back -/

/-- Once the request is built and the client has produced a response,
`request` is decided by the body read and the status code. -/
theorem request_of_response {σ Data Record : Type} (L : Deps Data Record)
    (api : WooCommerceAPI σ) (method endpoint : GoString) (data : Option Data)
    (params : List (GoString × GoString)) (w : World σ) (req : Request) (resp : Response)
    (net1 : σ)
    (hreq : api.buildRequest L method endpoint data params = .ok req)
    (hdo : api.httpClient.Do req w.net = (.ok resp, net1)) :
    api.request L method endpoint data params w =
      match resp.Body with
      | .error err => (([], some err), ⟨net1, w.sent ++ [req]⟩)
      | .ok body =>
        if resp.StatusCode ≥ 400 then
          (([], some ⟨lit "API request failed with status code " ++ fmtInt resp.StatusCode
            ++ lit ": " ++ body⟩), ⟨net1, w.sent ++ [req]⟩)
        else ((body, none), ⟨net1, w.sent ++ [req]⟩) := by
  unfold WooCommerceAPI.request
  simp only [hreq, hdo]

/-- When the client gives an error, `request` wraps its message. -/
theorem request_of_failure {σ Data Record : Type} (L : Deps Data Record)
    (api : WooCommerceAPI σ) (method endpoint : GoString) (data : Option Data)
    (params : List (GoString × GoString)) (w : World σ) (req : Request) (err : GoError)
    (net1 : σ)
    (hreq : api.buildRequest L method endpoint data params = .ok req)
    (hdo : api.httpClient.Do req w.net = (.error err, net1)) :
    api.request L method endpoint data params w =
      (([], some ⟨lit "API request failed: " ++ err.Error⟩), ⟨net1, w.sent ++ [req]⟩) := by
  unfold WooCommerceAPI.request
  simp only [hreq, hdo]

/-- When the client produces a response with status below 400, `request`
returns the body read from it. -/
theorem request_of_success {σ Data Record : Type} (L : Deps Data Record)
    (api : WooCommerceAPI σ) (method endpoint : GoString) (data : Option Data)
    (params : List (GoString × GoString)) (w : World σ) (req : Request) (resp : Response)
    (net1 : σ) (body : GoString)
    (hreq : api.buildRequest L method endpoint data params = .ok req)
    (hdo : api.httpClient.Do req w.net = (.ok resp, net1))
    (hbody : resp.Body = .ok body) (hcode : resp.StatusCode < 400) :
    api.request L method endpoint data params w = ((body, none), ⟨net1, w.sent ++ [req]⟩) := by
  rw [request_of_response L api method endpoint data params w req resp net1 hreq hdo, hbody]
  simp only [ge_iff_le]
  rw [if_neg (by omega)]

/-- C3: when the client produces a response with status below 400 whose body
reads as `body`, `request` returns exactly `body` and no error, and so do
`Get`, `Post`, `Put` and `Delete` for the calls they stand for. -/
theorem request_success_returns_body {σ Data Record : Type} (L : Deps Data Record)
    (api : WooCommerceAPI σ) (method endpoint : GoString) (data : Option Data)
    (params : List (GoString × GoString)) (w : World σ) (req : Request) (resp : Response)
    (net1 : σ) (body : GoString)
    (hreq : api.buildRequest L method endpoint data params = .ok req)
    (hdo : api.httpClient.Do req w.net = (.ok resp, net1))
    (hbody : resp.Body = .ok body) (hcode : resp.StatusCode < 400) :
    api.request L method endpoint data params w = ((body, none), ⟨net1, w.sent ++ [req]⟩)
    ∧ (method = lit "GET" → data = none →
        api.Get L endpoint params w = ((body, none), ⟨net1, w.sent ++ [req]⟩))
    ∧ (method = lit "POST" → params = [] →
        api.Post L endpoint data w = ((body, none), ⟨net1, w.sent ++ [req]⟩))
    ∧ (method = lit "PUT" → params = [] →
        api.Put L endpoint data w = ((body, none), ⟨net1, w.sent ++ [req]⟩))
    ∧ (method = lit "DELETE" → data = none → params = [] →
        api.Delete L endpoint w = ((body, none), ⟨net1, w.sent ++ [req]⟩)) := by
  have h : api.request L method endpoint data params w
      = ((body, none), ⟨net1, w.sent ++ [req]⟩) :=
    request_of_success L api method endpoint data params w req resp net1 body hreq hdo hbody hcode
  refine ⟨h, ?_, ?_, ?_, ?_⟩
  · intro hm hd
    subst hm hd
    exact h
  · intro hm hp
    subst hm hp
    exact h
  · intro hm hp
    subst hm hp
    exact h
  · intro hm hd hp
    subst hm hd hp
    exact h

/-- C3 at a concrete input: a server answering 200 with body `hello`. -/
theorem request_success_returns_body_witness :
    (mockAPI (constServer 200 (lit "hello"))).Get mockDeps (lit "products") []
        (⟨0, []⟩ : World Nat)
      = ((lit "hello", none), ⟨1, [] ++ [mockRequest (lit "GET") (lit "products") []]⟩) :=
  (request_success_returns_body mockDeps (mockAPI (constServer 200 (lit "hello")))
    (lit "GET") (lit "products") none [] ⟨0, []⟩ (mockRequest (lit "GET") (lit "products") [])
    ⟨200, .ok (lit "hello")⟩ 1 (lit "hello") rfl rfl rfl (by decide)).2.1 rfl rfl

/-- C2: when the client produces a response with status 400 or more whose
body reads as `body`, `request` returns no body and an error whose message is
`API request failed with status code `, the decimal status, `: ` and `body`;
the decimal status and `body` both occur in it unchanged. -/
theorem request_status_error {σ Data Record : Type} (L : Deps Data Record)
    (api : WooCommerceAPI σ) (method endpoint : GoString) (data : Option Data)
    (params : List (GoString × GoString)) (w : World σ) (req : Request) (resp : Response)
    (net1 : σ) (body : GoString)
    (hreq : api.buildRequest L method endpoint data params = .ok req)
    (hdo : api.httpClient.Do req w.net = (.ok resp, net1))
    (hbody : resp.Body = .ok body) (hcode : 400 ≤ resp.StatusCode) :
    ∃ msg : GoString,
      api.request L method endpoint data params w
        = (([], some ⟨msg⟩), ⟨net1, w.sent ++ [req]⟩)
      ∧ msg = lit "API request failed with status code " ++ fmtInt resp.StatusCode
          ++ lit ": " ++ body
      ∧ fmtInt resp.StatusCode <:+: msg
      ∧ body <:+ msg := by
  refine ⟨_, ?_, rfl, ?_, ?_⟩
  · rw [request_of_response L api method endpoint data params w req resp net1 hreq hdo, hbody]
    simp only [ge_iff_le]
    rw [if_pos hcode]
  · exact ⟨lit "API request failed with status code ", lit ": " ++ body, by simp⟩
  · exact ⟨lit "API request failed with status code " ++ fmtInt resp.StatusCode ++ lit ": ",
      by simp⟩

/-- C2 at a concrete input: status 404 with body `{"error":"not_found"}`. -/
theorem request_status_error_witness :
    ∃ msg : GoString,
      (mockAPI (constServer 404 (lit "\x7b\"error\":\"not_found\"\x7d"))).request mockDeps
          (lit "GET") (lit "products/9") none [] (⟨0, []⟩ : World Nat)
        = (([], some ⟨msg⟩), ⟨1, [] ++ [mockRequest (lit "GET") (lit "products/9") []]⟩)
      ∧ msg = lit "API request failed with status code " ++ fmtInt 404
          ++ lit ": " ++ lit "\x7b\"error\":\"not_found\"\x7d"
      ∧ fmtInt 404 <:+: msg
      ∧ lit "\x7b\"error\":\"not_found\"\x7d" <:+ msg :=
  request_status_error mockDeps (mockAPI (constServer 404 (lit "\x7b\"error\":\"not_found\"\x7d")))
    (lit "GET") (lit "products/9") none [] ⟨0, []⟩ (mockRequest (lit "GET") (lit "products/9") [])
    ⟨404, .ok (lit "\x7b\"error\":\"not_found\"\x7d")⟩ 1 _ rfl rfl rfl (by decide)

/-- C7: the four wrappers are `request` with the method and the missing
arguments fixed: `Get` passes no payload, `Post` and `Put` no parameters,
`Delete` neither. -/
theorem wrappers_are_request {σ Data Record : Type} (L : Deps Data Record)
    (api : WooCommerceAPI σ) (endpoint : GoString) (data : Option Data)
    (params : List (GoString × GoString)) (w : World σ) :
    api.Get L endpoint params w = api.request L (lit "GET") endpoint none params w
    ∧ api.Post L endpoint data w = api.request L (lit "POST") endpoint data [] w
    ∧ api.Put L endpoint data w = api.request L (lit "PUT") endpoint data [] w
    ∧ api.Delete L endpoint w = api.request L (lit "DELETE") endpoint none [] w :=
  ⟨rfl, rfl, rfl, rfl⟩

/-! ## The retry engine -/

/-- While the attempts are transient failures the engine moves on to the next
attempt. -/
theorem attempts_skip {σ : Type} (c : RetryClient σ) (req : Request) (st : Nat → σ)
    (r : Nat → Except GoError Response) (remain i : Nat)
    (hrun : ∀ j, i ≤ j → j < i + remain → c.HTTPClientDo req (st j) = (r j, st (j + 1)))
    (hfail : ∀ j, i ≤ j → j < i + remain → c.CheckRetry (r j) = true) :
    c.attempts req remain i (st i) = c.attempts req 0 (i + remain) (st (i + remain)) := by
  induction remain generalizing i with
  | zero => rfl
  | succ n ih =>
    have h1 := hrun i (le_refl i) (by omega)
    have h2 := hfail i (le_refl i) (by omega)
    conv_lhs => rw [RetryClient.attempts]
    simp only [h1, h2, if_true]
    rw [ih (i + 1) (fun j hj hj2 => hrun j (by omega) (by omega))
      (fun j hj hj2 => hfail j (by omega) (by omega))]
    rw [show i + 1 + n = i + (n + 1) by omega]

/-- C8: for a client constructed with retry ceiling `maxRetries`, when the
first `maxRetries` attempts are transient failures, a last attempt that
succeeds with a status below 400 makes `request` return its body and no
error, and a last attempt that is again a transient failure makes `request`
return no body and the engine's error behind `API request failed: `. -/
theorem retry_ceiling {σ Data Record : Type} (L : Deps Data Record)
    (newClient : RetryClient σ) (url consumerKey consumerSecret : GoString)
    (timeout maxRetries : Int) (method endpoint : GoString) (data : Option Data)
    (params : List (GoString × GoString)) (log : List Request) (req : Request)
    (st : Nat → σ) (r : Nat → Except GoError Response)
    (hmax : 0 ≤ maxRetries)
    (hreq : (NewWooCommerceAPI newClient url consumerKey consumerSecret timeout
      maxRetries).buildRequest L method endpoint data params = .ok req)
    (hrun : ∀ j : Nat, (j : Int) ≤ maxRetries →
      newClient.HTTPClientDo req (st j) = (r j, st (j + 1)))
    (hfail : ∀ j : Nat, (j : Int) < maxRetries → newClient.CheckRetry (r j) = true) :
    (∀ (resp : Response) (body : GoString),
      r maxRetries.toNat = .ok resp → newClient.CheckRetry (.ok resp) = false →
      resp.Body = .ok body → resp.StatusCode < 400 →
      (NewWooCommerceAPI newClient url consumerKey consumerSecret timeout
        maxRetries).request L method endpoint data params ⟨st 0, log⟩
        = ((body, none), ⟨st (maxRetries.toNat + 1), log ++ [req]⟩))
    ∧ (newClient.CheckRetry (r maxRetries.toNat) = true →
      (NewWooCommerceAPI newClient url consumerKey consumerSecret timeout
        maxRetries).request L method endpoint data params ⟨st 0, log⟩
        = (([], some ⟨lit "API request failed: "
            ++ (newClient.GiveUp req (maxRetries.toNat + 1) (r maxRetries.toNat)).Error⟩),
          ⟨st (maxRetries.toNat + 1), log ++ [req]⟩)) := by
  have hskip := attempts_skip
    (NewWooCommerceAPI newClient url consumerKey consumerSecret timeout maxRetries).httpClient
    req st r maxRetries.toNat 0
    (fun j _ hj => hrun j (by omega)) (fun j _ hj => hfail j (by omega))
  have hlast := hrun maxRetries.toNat (by omega)
  have hdo : (NewWooCommerceAPI newClient url consumerKey consumerSecret timeout
      maxRetries).httpClient.Do req (st 0)
      = if newClient.CheckRetry (r maxRetries.toNat) then
          (.error (newClient.GiveUp req (maxRetries.toNat + 1) (r maxRetries.toNat)),
            st (maxRetries.toNat + 1))
        else (r maxRetries.toNat, st (maxRetries.toNat + 1)) := by
    have hm : (NewWooCommerceAPI newClient url consumerKey consumerSecret timeout
      maxRetries).httpClient.RetryMax = maxRetries := rfl
    rw [RetryClient.Do, hm, hskip, RetryClient.attempts]
    simp only [Nat.zero_add]
    have hl : (NewWooCommerceAPI newClient url consumerKey consumerSecret timeout
      maxRetries).httpClient.HTTPClientDo req (st maxRetries.toNat)
        = (r maxRetries.toNat, st (maxRetries.toNat + 1)) := hlast
    rw [hl]
    rfl
  constructor
  · intro resp body hr hc hb hs
    rw [hr] at hdo
    rw [if_neg (by simp [hc])] at hdo
    exact request_of_success L _ method endpoint data params ⟨st 0, log⟩ req resp
      _ body hreq hdo hb hs
  · intro hc
    rw [if_pos hc] at hdo
    exact request_of_failure L _ method endpoint data params ⟨st 0, log⟩ req _ _ hreq hdo

/-- C8 at concrete inputs: with ceiling 3, a transport refusing three attempts
and then answering gives the body; one refusing four attempts gives the
wrapped error. -/
theorem retry_ceiling_witness :
    (mockAPI (flakyTransport 3)).request mockDeps (lit "GET") (lit "products") none []
        (⟨0, []⟩ : World Nat)
      = ((lit "ok", none), ⟨4, [] ++ [mockRequest (lit "GET") (lit "products") []]⟩)
    ∧ (mockAPI (flakyTransport 4)).request mockDeps (lit "GET") (lit "products") none []
        (⟨0, []⟩ : World Nat)
      = (([], some ⟨lit "API request failed: " ++ lit "giving up"⟩),
          ⟨4, [] ++ [mockRequest (lit "GET") (lit "products") []]⟩) :=
  ⟨(retry_ceiling mockDeps (mockClient (flakyTransport 3)) (lit "https://example.com")
      (lit "consumer_key") (lit "consumer_secret") 10000000000 3 (lit "GET") (lit "products")
      none [] [] (mockRequest (lit "GET") (lit "products") []) (fun j => j)
      (fun j => if j < 3 then .error ⟨lit "connection refused"⟩ else .ok ⟨200, .ok (lit "ok")⟩)
      (by decide) rfl
      (fun j _ => by
        show flakyTransport 3 (mockRequest (lit "GET") (lit "products") []) j = _
        unfold flakyTransport
        split <;> rename_i h <;> simp [h])
      (fun j hj => by
        have h : j < 3 := by omega
        simp only [h, if_true]
        rfl)).1 ⟨200, .ok (lit "ok")⟩ (lit "ok") rfl rfl rfl (by decide),
   (retry_ceiling mockDeps (mockClient (flakyTransport 4)) (lit "https://example.com")
      (lit "consumer_key") (lit "consumer_secret") 10000000000 3 (lit "GET") (lit "products")
      none [] [] (mockRequest (lit "GET") (lit "products") []) (fun j => j)
      (fun j => if j < 4 then .error ⟨lit "connection refused"⟩ else .ok ⟨200, .ok (lit "ok")⟩)
      (by decide) rfl
      (fun j _ => by
        show flakyTransport 4 (mockRequest (lit "GET") (lit "products") []) j = _
        unfold flakyTransport
        split <;> rename_i h <;> simp [h])
      (fun j hj => by
        have h : j < 4 := by omega
        simp only [h, if_true]
        rfl)).2 rfl⟩

/-! ## The pagination loop -/

/-- Running `a + b` passes is running `a` passes and then `b` more. -/
theorem loop_add {σ Data Record : Type} (L : Deps Data Record) (api : WooCommerceAPI σ)
    (perPage : Int) (a b : Nat) (st : LoopState σ Record) :
    api.loop L perPage (a + b) st =
      match api.loop L perPage a st with
      | .inl st1 => api.loop L perPage b st1
      | .inr r => .inr r := by
  induction a generalizing st with
  | zero => simp [WooCommerceAPI.loop]
  | succ n ih =>
    rw [Nat.succ_add, WooCommerceAPI.loop, WooCommerceAPI.loop]
    cases h : api.loopBody L perPage st with
    | inl st1 => simp only [ih]
    | inr r => rfl

/-- Once the loop has returned, more fuel changes nothing. -/
theorem loop_returned {σ Data Record : Type} (L : Deps Data Record) (api : WooCommerceAPI σ)
    (perPage : Int) (a b : Nat) (st : LoopState σ Record) (r : Returned σ Record)
    (h : api.loop L perPage a st = .inr r) (hab : a ≤ b) :
    api.loop L perPage b st = .inr r := by
  obtain ⟨c, rfl⟩ := Nat.exists_eq_add_of_le hab
  rw [loop_add, h]

/-- `Get` appends at most one request to the list of requests sent. -/
theorem request_sent {σ Data Record : Type} (L : Deps Data Record) (api : WooCommerceAPI σ)
    (method endpoint : GoString) (data : Option Data) (params : List (GoString × GoString))
    (w : World σ) :
    (api.request L method endpoint data params w).2.sent = w.sent
    ∨ ∃ req, (api.request L method endpoint data params w).2.sent = w.sent ++ [req] := by
  unfold WooCommerceAPI.request
  cases hb : api.buildRequest L method endpoint data params with
  | error e => exact Or.inl rfl
  | ok req =>
    refine Or.inr ⟨req, ?_⟩
    dsimp only
    split
    · rfl
    · split
      · rfl
      · split <;> rfl

/-- One pass of the loop on a page that is served and decodes. -/
theorem loopBody_served {σ Data Record : Type} (L : Deps Data Record) (api : WooCommerceAPI σ)
    (perPage : Int) (st : Nat → σ) (reqs : Nat → Request) (bodies : Nat → GoString) (k : Nat)
    (hs : Serves L api perPage st reqs bodies k) (acc : List Record) (log : List Request) :
    api.loopBody L perPage ⟨acc, (k : Int) + 1, ⟨st k, log⟩⟩ =
      match L.Unmarshal (bodies k) with
      | .error err => .inr (([], some err), ⟨st (k + 1), log ++ [reqs k]⟩)
      | .ok pageProducts =>
        if pageProducts.length = 0 then .inr ((acc, none), ⟨st (k + 1), log ++ [reqs k]⟩)
        else .inl ⟨acc ++ pageProducts, (k : Int) + 1 + 1, ⟨st (k + 1), log ++ [reqs k]⟩⟩ := by
  obtain ⟨hreq, resp, hdo, hbody, hcode⟩ := hs
  have hget : api.Get L (lit "products") (pageParams perPage ((k : Int) + 1)) ⟨st k, log⟩
      = ((bodies k, none), ⟨st (k + 1), log ++ [reqs k]⟩) :=
    request_of_success L api (lit "GET") (lit "products") none
      (pageParams perPage ((k : Int) + 1)) ⟨st k, log⟩ (reqs k) resp (st (k + 1)) (bodies k)
      hreq hdo hbody hcode
  unfold WooCommerceAPI.loopBody
  simp only [hget]

/-- While every page is served, decodes and is not empty, the loop keeps
running: after `m` passes it holds the first `m` pages, the page counter is
`m + 1` and `m` requests have been sent. -/
theorem loop_running {σ Data Record : Type} (L : Deps Data Record) (api : WooCommerceAPI σ)
    (perPage : Int) (st : Nat → σ) (reqs : Nat → Request) (bodies : Nat → GoString)
    (pages : Nat → List Record) (log : List Request) (m : Nat)
    (hs : ∀ k, k < m → Serves L api perPage st reqs bodies k)
    (hd : ∀ k, k < m → L.Unmarshal (bodies k) = .ok (pages k))
    (hne : ∀ k, k < m → pages k ≠ []) :
    api.loop L perPage m ⟨[], 1, ⟨st 0, log⟩⟩ =
      .inl ⟨(List.range m).flatMap pages, (m : Int) + 1,
        ⟨st m, log ++ (List.range m).map reqs⟩⟩ := by
  induction m with
  | zero => simp [WooCommerceAPI.loop]
  | succ n ih =>
    rw [loop_add, ih (fun k hk => hs k (by omega)) (fun k hk => hd k (by omega))
      (fun k hk => hne k (by omega))]
    simp only [WooCommerceAPI.loop]
    rw [loopBody_served L api perPage st reqs bodies n (hs n (by omega)), hd n (by omega)]
    have h0 : (pages n).length ≠ 0 := by
      intro h
      exact hne n (by omega) (List.length_eq_zero.mp h)
    simp only [h0, if_false]
    simp [List.range_succ, List.flatMap_append, List.map_append, List.append_assoc]

/-! ## `url.Values` -/

/-- Adding a value adds one pair. -/
theorem pairs_Add (m : Values) (k v : GoString) :
    (m.Add k v).pairs.Perm (m.pairs ++ [(k, v)]) := by
  induction m with
  | nil => simp [Values.Add, Values.pairs]
  | cons e rest ih =>
    obtain ⟨k1, vs⟩ := e
    unfold Values.Add
    split
    · rename_i hk
      subst hk
      simp only [Values.pairs, List.flatMap_cons, List.map_append, List.map_cons, List.map_nil,
        List.append_assoc]
      exact List.Perm.append_left _ List.perm_append_comm
    · split
      · have h : Values.pairs ((k, [v]) :: (k1, vs) :: rest)
            = [(k, v)] ++ Values.pairs ((k1, vs) :: rest) := by
          simp [Values.pairs, List.flatMap_cons]
        rw [h]
        exact List.perm_append_comm
      · have h1 : Values.pairs ((k1, vs) :: Values.Add rest k v)
            = vs.map (fun x => (k1, x)) ++ Values.pairs (Values.Add rest k v) := by
          simp [Values.pairs, List.flatMap_cons]
        have h2 : Values.pairs ((k1, vs) :: rest)
            = vs.map (fun x => (k1, x)) ++ Values.pairs rest := by
          simp [Values.pairs, List.flatMap_cons]
        rw [h1, h2, List.append_assoc]
        exact List.Perm.append_left _ ih

/-- Adding the entries of a parameter map adds exactly its pairs. -/
theorem pairs_foldl_Add (params : List (GoString × GoString)) (m : Values) :
    (params.foldl (fun q kv => q.Add kv.1 kv.2) m).pairs.Perm (m.pairs ++ params) := by
  induction params generalizing m with
  | nil => simp
  | cons kv rest ih =>
    rw [List.foldl_cons]
    refine (ih (m.Add kv.1 kv.2)).trans ?_
    have h := (pairs_Add m kv.1 kv.2).append_right rest
    simpa [List.append_assoc] using h

/-! ## `request`: what goes out -/

/-- The request handed to the client, field by field. -/
theorem buildRequest_ok {σ Data Record : Type} (L : Deps Data Record) (api : WooCommerceAPI σ)
    (method endpoint : GoString) (data : Option Data) (params : List (GoString × GoString))
    (req : Request) (h : api.buildRequest L method endpoint data params = .ok req) :
    req.Method = (if method = [] then lit "GET" else method)
    ∧ req.URL.Location
        = (parseURL L.Locate (api.url ++ lit "/wp-json/wc/v3/" ++ endpoint)).Location
    ∧ req.URL.ForceQuery
        = (parseURL L.Locate (api.url ++ lit "/wp-json/wc/v3/" ++ endpoint)).ForceQuery
    ∧ req.URL.RawQuery = (params.foldl (fun q kv => q.Add kv.1 kv.2)
        (parseURL L.Locate (api.url ++ lit "/wp-json/wc/v3/" ++ endpoint)).Query).Encode
    ∧ headerGet req.Header (lit "Authorization")
        = some (lit "Basic " ++ basicAuth api.auth []) := by
  unfold WooCommerceAPI.buildRequest at h
  dsimp only at h
  split at h
  · exact absurd h (by simp)
  · unfold NewRequest at h
    split at h
    · exact absurd h (by simp)
    · rename_i req0 hreq0
      split at hreq0
      · exact absurd hreq0 (by simp)
      · have h1 := Except.ok.inj hreq0
        have h2 := Except.ok.inj h
        subst h1
        subst h2
        refine ⟨rfl, rfl, rfl, rfl, ?_⟩
        simp only [Request.HeaderSet, Request.SetBasicAuth, headerSet, headerGet]
        have ha : lit "Authorization" ≠ lit "Content-Type" := by decide
        have hb : lit "Authorization" ≠ lit "User-Agent" := by decide
        simp [ha, hb]

/-- The request for one page: a `GET` for `products` whose query encodes a
map holding the page number and the page size. -/
theorem page_request {σ Data Record : Type} (L : Deps Data Record) (api : WooCommerceAPI σ)
    (perPage page : Int) (req : Request)
    (h : api.buildRequest L (lit "GET") (lit "products") none (pageParams perPage page)
      = .ok req) :
    req.Method = lit "GET"
    ∧ req.URL.Location
        = (parseURL L.Locate (api.url ++ lit "/wp-json/wc/v3/" ++ lit "products")).Location
    ∧ ∃ q : Values, req.URL.RawQuery = q.Encode
        ∧ (lit "page", fmtInt page) ∈ q.pairs ∧ (lit "per_page", fmtInt perPage) ∈ q.pairs := by
  obtain ⟨hm, hl, _, hq, _⟩ := buildRequest_ok L api _ _ _ _ req h
  refine ⟨by rw [hm]; rfl, hl, _, hq, ?_, ?_⟩
  · exact (pairs_foldl_Add _ _).mem_iff.mpr (by simp [pageParams])
  · exact (pairs_foldl_Add _ _).mem_iff.mpr (by simp [pageParams])

/-! ## `GetAllProducts` -/

/-- C1: when pages `1..n` are served with status below 400 and decode to the
non-empty lists `pages 0 .. pages (n-1)`, and page `n + 1` is served and
decodes to the empty list, `GetAllProducts` (with any fuel above `n`) returns
their concatenation in order and no error, and has sent exactly the `n + 1`
page requests, in order; each is a `GET` for `products` whose query holds
`page` = the decimal page number and `per_page` = the decimal page size. -/
theorem getAllProducts_concat {σ Data Record : Type} (L : Deps Data Record)
    (api : WooCommerceAPI σ) (perPage : Int) (st : Nat → σ) (reqs : Nat → Request)
    (bodies : Nat → GoString) (pages : Nat → List Record) (log : List Request) (n fuel : Nat)
    (hs : ∀ k, k ≤ n → Serves L api perPage st reqs bodies k)
    (hd : ∀ k, k ≤ n → L.Unmarshal (bodies k) = .ok (pages k))
    (hne : ∀ k, k < n → pages k ≠ [])
    (hlast : pages n = [])
    (hfuel : n < fuel) :
    api.GetAllProducts L perPage fuel ⟨st 0, log⟩
      = some (((List.range n).flatMap pages, none),
          ⟨st (n + 1), log ++ (List.range (n + 1)).map reqs⟩)
    ∧ ∀ k, k ≤ n →
        (reqs k).Method = lit "GET"
        ∧ (reqs k).URL.Location
            = (parseURL L.Locate (api.url ++ lit "/wp-json/wc/v3/" ++ lit "products")).Location
        ∧ ∃ q : Values, (reqs k).URL.RawQuery = q.Encode
            ∧ (lit "page", fmtInt ((k : Int) + 1)) ∈ q.pairs
            ∧ (lit "per_page", fmtInt perPage) ∈ q.pairs := by
  constructor
  · have hrun := loop_running L api perPage st reqs bodies pages log n
      (fun k hk => hs k (by omega)) (fun k hk => hd k (by omega)) hne
    have hstop : api.loop L perPage (n + 1) ⟨[], 1, ⟨st 0, log⟩⟩
        = .inr (((List.range n).flatMap pages, none),
            ⟨st (n + 1), log ++ (List.range (n + 1)).map reqs⟩) := by
      rw [loop_add, hrun]
      simp only [WooCommerceAPI.loop]
      rw [loopBody_served L api perPage st reqs bodies n (hs n (le_refl n)), hd n (le_refl n),
        hlast]
      simp [List.range_succ, List.map_append, List.append_assoc]
    unfold WooCommerceAPI.GetAllProducts
    rw [loop_returned L api perPage (n + 1) fuel _ _ hstop (by omega)]
  · intro k hk
    exact page_request L api perPage ((k : Int) + 1) (reqs k) (hs k hk).1

/-- C1 at a concrete input: pages `[[a, b], [c], []]` with page size 2 give
`[a, b, c]` and three requests, for pages 1, 2 and 3. -/
theorem getAllProducts_concat_witness :
    (mockAPI (pageServer [lit "ab", lit "c"])).GetAllProducts mockDeps 2 5 (⟨0, []⟩ : World Nat)
      = some (((List.range 2).flatMap (fun k => [lit "ab", lit "c"].getD k []), none),
          ⟨3, [] ++ (List.range 3).map fun k =>
            mockRequest (lit "GET") (lit "products") (pageParams 2 ((k : Int) + 1))⟩)
    ∧ (List.range 2).flatMap (fun k => [lit "ab", lit "c"].getD k []) = lit "abc"
    ∧ (List.range 3).map (fun k => (mockRequest (lit "GET") (lit "products")
          (pageParams 2 ((k : Int) + 1))).URL.RawQuery)
        = [lit "page=1&per_page=2", lit "page=2&per_page=2", lit "page=3&per_page=2"] :=
  ⟨(getAllProducts_concat mockDeps (mockAPI (pageServer [lit "ab", lit "c"])) 2 (fun k => k)
      (fun k => mockRequest (lit "GET") (lit "products") (pageParams 2 ((k : Int) + 1)))
      (fun k => [lit "ab", lit "c"].getD k []) (fun k => [lit "ab", lit "c"].getD k []) [] 2 5
      (fun k hk => by
        interval_cases k
        · exact ⟨rfl, ⟨200, .ok (lit "ab")⟩, rfl, rfl, by decide⟩
        · exact ⟨rfl, ⟨200, .ok (lit "c")⟩, rfl, rfl, by decide⟩
        · exact ⟨rfl, ⟨200, .ok []⟩, rfl, rfl, by decide⟩)
      (fun k hk => by interval_cases k <;> rfl)
      (fun k hk => by interval_cases k <;> decide)
      rfl (by decide)).1, by decide, by decide⟩

/-- C6: when pages `1..m` are served, decode and are not empty, and the body
of page `m + 1` is served but does not decode, `GetAllProducts` returns the
decode error with a nil result, and has sent the `m + 1` page requests and no
other. -/
theorem getAllProducts_decode_error {σ Data Record : Type} (L : Deps Data Record)
    (api : WooCommerceAPI σ) (perPage : Int) (st : Nat → σ) (reqs : Nat → Request)
    (bodies : Nat → GoString) (pages : Nat → List Record) (log : List Request) (m fuel : Nat)
    (err : GoError)
    (hs : ∀ k, k ≤ m → Serves L api perPage st reqs bodies k)
    (hd : ∀ k, k < m → L.Unmarshal (bodies k) = .ok (pages k))
    (hne : ∀ k, k < m → pages k ≠ [])
    (hbad : L.Unmarshal (bodies m) = .error err)
    (hfuel : m < fuel) :
    api.GetAllProducts L perPage fuel ⟨st 0, log⟩
      = some (((([] : List Record), some err), ⟨st (m + 1), log ++ (List.range (m + 1)).map reqs⟩)
        : Returned σ Record) := by
  have hrun := loop_running L api perPage st reqs bodies pages log m
    (fun k hk => hs k (by omega)) hd hne
  have hstop : api.loop L perPage (m + 1) ⟨[], 1, ⟨st 0, log⟩⟩
      = .inr (((([] : List Record), some err), ⟨st (m + 1), log ++ (List.range (m + 1)).map reqs⟩)
        : Returned σ Record) := by
    rw [loop_add, hrun]
    simp only [WooCommerceAPI.loop]
    rw [loopBody_served L api perPage st reqs bodies m (hs m (le_refl m)), hbad]
    simp [List.range_succ, List.map_append, List.append_assoc]
  unfold WooCommerceAPI.GetAllProducts
  rw [loop_returned L api perPage (m + 1) fuel _ _ hstop (by omega)]

/-- C6 at concrete inputs: a first page that does not decode gives the decode
error, a nil result and exactly one request; a second page that does not
decode loses the records of the first. -/
theorem getAllProducts_decode_error_witness :
    (mockAPI (pageServer [lit "!"])).GetAllProducts mockDeps 2 5 (⟨0, []⟩ : World Nat)
      = some (([], some ⟨lit "invalid character"⟩),
          ⟨1, [] ++ (List.range 1).map fun k =>
            mockRequest (lit "GET") (lit "products") (pageParams 2 ((k : Int) + 1))⟩)
    ∧ (mockAPI (pageServer [lit "ab", lit "!"])).GetAllProducts mockDeps 2 5
        (⟨0, []⟩ : World Nat)
      = some (([], some ⟨lit "invalid character"⟩),
          ⟨2, [] ++ (List.range 2).map fun k =>
            mockRequest (lit "GET") (lit "products") (pageParams 2 ((k : Int) + 1))⟩) :=
  ⟨getAllProducts_decode_error mockDeps (mockAPI (pageServer [lit "!"])) 2 (fun k => k)
      (fun k => mockRequest (lit "GET") (lit "products") (pageParams 2 ((k : Int) + 1)))
      (fun k => [lit "!"].getD k []) (fun _ => []) [] 0 5 ⟨lit "invalid character"⟩
      (fun k hk => by
        interval_cases k
        exact ⟨rfl, ⟨200, .ok (lit "!")⟩, rfl, rfl, by decide⟩)
      (fun k hk => absurd hk (by omega)) (fun k hk => absurd hk (by omega)) rfl (by decide),
   getAllProducts_decode_error mockDeps (mockAPI (pageServer [lit "ab", lit "!"])) 2
      (fun k => k)
      (fun k => mockRequest (lit "GET") (lit "products") (pageParams 2 ((k : Int) + 1)))
      (fun k => [lit "ab", lit "!"].getD k []) (fun _ => lit "ab") [] 1 5
      ⟨lit "invalid character"⟩
      (fun k hk => by
        interval_cases k
        · exact ⟨rfl, ⟨200, .ok (lit "ab")⟩, rfl, rfl, by decide⟩
        · exact ⟨rfl, ⟨200, .ok (lit "!")⟩, rfl, rfl, by decide⟩)
      (fun k hk => by interval_cases k; rfl)
      (fun k hk => by show lit "ab" ≠ []; decide) rfl (by decide)⟩

/-- C9: against a server whose every page is served, decodes and is not
empty, the loop never ends: for every `n`, after `n` passes it is still
running, has sent the `n` requests for pages `1..n`, holds the concatenation
of those pages, and `GetAllProducts` with fuel `n` has not returned. -/
theorem getAllProducts_unbounded {σ Data Record : Type} (L : Deps Data Record)
    (api : WooCommerceAPI σ) (perPage : Int) (st : Nat → σ) (reqs : Nat → Request)
    (bodies : Nat → GoString) (pages : Nat → List Record) (log : List Request)
    (hs : ∀ k, Serves L api perPage st reqs bodies k)
    (hd : ∀ k, L.Unmarshal (bodies k) = .ok (pages k))
    (hne : ∀ k, pages k ≠ []) (n : Nat) :
    api.loop L perPage n ⟨[], 1, ⟨st 0, log⟩⟩
      = .inl ⟨(List.range n).flatMap pages, (n : Int) + 1,
          ⟨st n, log ++ (List.range n).map reqs⟩⟩
    ∧ api.GetAllProducts L perPage n ⟨st 0, log⟩ = (none : Option (Returned σ Record))
    ∧ ∀ k, (reqs k).Method = lit "GET"
        ∧ ∃ q : Values, (reqs k).URL.RawQuery = q.Encode
            ∧ (lit "page", fmtInt ((k : Int) + 1)) ∈ q.pairs := by
  have hrun := loop_running L api perPage st reqs bodies pages log n
    (fun k _ => hs k) (fun k _ => hd k) (fun k _ => hne k)
  refine ⟨hrun, ?_, ?_⟩
  · unfold WooCommerceAPI.GetAllProducts
    rw [hrun]
  · intro k
    obtain ⟨h1, _, q, h3, h4, _⟩ := page_request L api perPage ((k : Int) + 1) (reqs k) (hs k).1
    exact ⟨h1, q, h3, h4⟩

/-- C9 at a concrete input: a server answering every page with one record;
after 7 passes the loop is still running. -/
theorem getAllProducts_unbounded_witness :
    (mockAPI (constServer 200 (lit "x"))).loop mockDeps 2 7 ⟨[], 1, (⟨0, []⟩ : World Nat)⟩
      = .inl ⟨(List.range 7).flatMap (fun _ => lit "x"), ((7 : Nat) : Int) + 1,
          ⟨7, [] ++ (List.range 7).map fun k =>
            mockRequest (lit "GET") (lit "products") (pageParams 2 ((k : Int) + 1))⟩⟩
    ∧ (mockAPI (constServer 200 (lit "x"))).GetAllProducts mockDeps 2 7 (⟨0, []⟩ : World Nat)
      = none :=
  have h := getAllProducts_unbounded mockDeps (mockAPI (constServer 200 (lit "x"))) 2
    (fun k => k)
    (fun k => mockRequest (lit "GET") (lit "products") (pageParams 2 ((k : Int) + 1)))
    (fun _ => lit "x") (fun _ => lit "x") []
    (fun _ => ⟨rfl, ⟨200, .ok (lit "x")⟩, rfl, rfl, by decide⟩)
    (fun _ => rfl) (fun _ => by show lit "x" ≠ []; decide) 7
  ⟨h.1, h.2.1⟩

/-- C10: when pages `1..m` are served, decode and are not empty, and `Get`
for page `m + 1` returns an error, `GetAllProducts` returns that very error
with a nil result and leaves the world as that `Get` left it: nothing is sent
after the failed call. -/
theorem getAllProducts_get_error {σ Data Record : Type} (L : Deps Data Record)
    (api : WooCommerceAPI σ) (perPage : Int) (st : Nat → σ) (reqs : Nat → Request)
    (bodies : Nat → GoString) (pages : Nat → List Record) (log : List Request) (m fuel : Nat)
    (b : GoString) (err : GoError) (w1 : World σ)
    (hs : ∀ k, k < m → Serves L api perPage st reqs bodies k)
    (hd : ∀ k, k < m → L.Unmarshal (bodies k) = .ok (pages k))
    (hne : ∀ k, k < m → pages k ≠ [])
    (hget : api.Get L (lit "products") (pageParams perPage ((m : Int) + 1))
      ⟨st m, log ++ (List.range m).map reqs⟩ = ((b, some err), w1))
    (hfuel : m < fuel) :
    api.GetAllProducts L perPage fuel ⟨st 0, log⟩
      = some (((([] : List Record), some err), w1) : Returned σ Record)
    ∧ (w1.sent = log ++ (List.range m).map reqs
        ∨ ∃ req, w1.sent = log ++ (List.range m).map reqs ++ [req]) := by
  have hrun := loop_running L api perPage st reqs bodies pages log m hs hd hne
  have hstop : api.loop L perPage (m + 1) ⟨[], 1, ⟨st 0, log⟩⟩
      = .inr (((([] : List Record), some err), w1) : Returned σ Record) := by
    rw [loop_add, hrun]
    simp only [WooCommerceAPI.loop]
    unfold WooCommerceAPI.loopBody
    simp only [hget]
  constructor
  · unfold WooCommerceAPI.GetAllProducts
    rw [loop_returned L api perPage (m + 1) fuel _ _ hstop (by omega)]
  · have h := request_sent L api (lit "GET") (lit "products") none
      (pageParams perPage ((m : Int) + 1)) ⟨st m, log ++ (List.range m).map reqs⟩
    have hg : api.request L (lit "GET") (lit "products") none
        (pageParams perPage ((m : Int) + 1)) ⟨st m, log ++ (List.range m).map reqs⟩
        = ((b, some err), w1) := hget
    rw [hg] at h
    exact h

/-- C10 at a concrete input: the first page holds two records and the call
for the second is answered 404; the error of the second call comes back, the
two records do not, and two requests have been sent. -/
theorem getAllProducts_get_error_witness :
    (mockAPI (brokenServer [lit "ab"] 404 (lit "gone"))).GetAllProducts mockDeps 2 5
        (⟨0, []⟩ : World Nat)
      = some (([], some ⟨lit "API request failed with status code 404: gone"⟩),
          ⟨2, [mockRequest (lit "GET") (lit "products") (pageParams 2 1),
               mockRequest (lit "GET") (lit "products") (pageParams 2 2)]⟩) :=
  (getAllProducts_get_error mockDeps (mockAPI (brokenServer [lit "ab"] 404 (lit "gone"))) 2
    (fun k => k)
    (fun k => mockRequest (lit "GET") (lit "products") (pageParams 2 ((k : Int) + 1)))
    (fun _ => lit "ab") (fun _ => lit "ab") [] 1 5 []
    ⟨lit "API request failed with status code 404: gone"⟩
    ⟨2, [mockRequest (lit "GET") (lit "products") (pageParams 2 1),
         mockRequest (lit "GET") (lit "products") (pageParams 2 2)]⟩
    (fun k hk => by
      interval_cases k
      exact ⟨rfl, ⟨200, .ok (lit "ab")⟩, rfl, rfl, by decide⟩)
    (fun _ _ => rfl) (fun _ _ => by show lit "ab" ≠ []; decide) (by decide) (by decide)).1

/-! ## Basic authentication -/

/-- Decoding an alphabet byte gives back its 6-bit value. -/
theorem decChar_encChar_fin : ∀ i : Fin 64, decChar (encChar i.val) = some i.val := by decide

/-- Decoding an alphabet byte gives back its 6-bit value. -/
theorem decChar_encChar (i : Nat) (h : i < 64) : decChar (encChar i) = some i :=
  decChar_encChar_fin ⟨i, h⟩

/-- No alphabet byte is the padding byte. -/
theorem encChar_ne_pad (i : Nat) (h : i < 64) : encChar i ≠ pad := by
  intro he
  have h1 := decChar_encChar i h
  rw [he] at h1
  have h2 : decChar pad = none := by decide
  rw [h2] at h1
  exact absurd h1 (by simp)

/-- A byte rebuilt from its own value. -/
theorem byte_of_sextets (a : Byte) (n : Nat) (h : n = a.val) : (Fin.ofNat n : Byte) = a := by
  subst h
  apply Fin.ext
  have := a.isLt
  simp [Fin.ofNat]

/-- Decoding undoes encoding, for every byte sequence. -/
theorem b64decode_b64encode (s : GoString) : b64decode (b64encode s) = some s := by
  induction s using b64encode.induct with
  | case1 => rfl
  | case2 a =>
    have ha := a.isLt
    simp only [b64encode, b64decode]
    simp [decChar_encChar (a.val / 4) (by omega), decChar_encChar (a.val % 4 * 16) (by omega)]
    exact byte_of_sextets a _ (by omega)
  | case3 a b =>
    have ha := a.isLt
    have hb := b.isLt
    simp only [b64encode, b64decode]
    simp [decChar_encChar (a.val / 4) (by omega),
      decChar_encChar (a.val % 4 * 16 + b.val / 16) (by omega),
      decChar_encChar (b.val % 16 * 4) (by omega), encChar_ne_pad (b.val % 16 * 4) (by omega)]
    exact ⟨byte_of_sextets a _ (by omega), byte_of_sextets b _ (by omega)⟩
  | case4 a b c rest ih =>
    have ha := a.isLt
    have hb := b.isLt
    have hc := c.isLt
    simp only [b64encode, b64decode]
    simp [decChar_encChar (a.val / 4) (by omega),
      decChar_encChar (a.val % 4 * 16 + b.val / 16) (by omega),
      decChar_encChar (b.val % 16 * 4 + c.val / 64) (by omega),
      decChar_encChar (c.val % 64) (by omega), encChar_ne_pad (c.val % 64) (by omega), ih]
    exact ⟨byte_of_sextets a _ (by omega), byte_of_sextets b _ (by omega),
      byte_of_sextets c _ (by omega)⟩

/-- C4, amended: for a client built by `NewWooCommerceAPI`, the
`Authorization` header of every request is `Basic ` followed by a base64
text that decodes to `consumerKey:consumerSecret:`, that is the user name
`consumerKey:consumerSecret`, the separator of the scheme and an empty
password. -/
theorem basic_auth_header {σ Data Record : Type} (L : Deps Data Record)
    (newClient : RetryClient σ) (url consumerKey consumerSecret : GoString)
    (timeout maxRetries : Int) (method endpoint : GoString) (data : Option Data)
    (params : List (GoString × GoString)) (req : Request)
    (h : (NewWooCommerceAPI newClient url consumerKey consumerSecret timeout
      maxRetries).buildRequest L method endpoint data params = .ok req) :
    ∃ enc : GoString,
      headerGet req.Header (lit "Authorization") = some (lit "Basic " ++ enc)
      ∧ b64decode enc = some (consumerKey ++ lit ":" ++ consumerSecret ++ lit ":") := by
  obtain ⟨_, _, _, _, hauth⟩ := buildRequest_ok L _ method endpoint data params req h
  refine ⟨_, hauth, ?_⟩
  unfold basicAuth
  rw [b64decode_b64encode]
  simp [NewWooCommerceAPI]

/-- C4, amended, at a concrete input: the credentials of `main` give a header
that decodes to `consumer_key:consumer_secret:`. -/
theorem basic_auth_header_witness :
    ∃ enc : GoString,
      headerGet (mockRequest (lit "GET") (lit "products") []).Header (lit "Authorization")
        = some (lit "Basic " ++ enc)
      ∧ b64decode enc
        = some (lit "consumer_key" ++ lit ":" ++ lit "consumer_secret" ++ lit ":") :=
  basic_auth_header mockDeps (mockClient (constServer 200 [])) (lit "https://example.com")
    (lit "consumer_key") (lit "consumer_secret") 10000000000 3 (lit "GET") (lit "products")
    none [] (mockRequest (lit "GET") (lit "products") []) rfl

/-- C4 as stated fails: with key `ck` and secret `cs` the header is
`Basic Y2s6Y3M6`, and no base64 text behind `Basic ` decodes to `ck:cs`. -/
theorem basic_auth_header_counterexample :
    ∃ req : Request,
      (NewWooCommerceAPI (mockClient (constServer 200 [])) (lit "https://example.com")
        (lit "ck") (lit "cs") 10000000000 3).buildRequest mockDeps (lit "GET") (lit "products")
        none [] = .ok req
      ∧ headerGet req.Header (lit "Authorization") = some (lit "Basic Y2s6Y3M6")
      ∧ b64decode (lit "Y2s6Y3M6") = some (lit "ck:cs:")
      ∧ ¬ ∃ enc : GoString,
          headerGet req.Header (lit "Authorization") = some (lit "Basic " ++ enc)
          ∧ b64decode enc = some (lit "ck" ++ lit ":" ++ lit "cs") := by
  refine ⟨_, rfl, by decide, by decide, ?_⟩
  rintro ⟨enc, h1, h2⟩
  have h3 : headerGet (match (NewWooCommerceAPI (mockClient (constServer 200 []))
      (lit "https://example.com") (lit "ck") (lit "cs") 10000000000 3).buildRequest mockDeps
      (lit "GET") (lit "products") none [] with
      | .ok r => r
      | .error _ => ⟨[], ⟨[], false, []⟩, [], []⟩).Header (lit "Authorization")
      = some (lit "Basic " ++ lit "Y2s6Y3M6") := by decide
  have h4 : lit "Basic " ++ enc = lit "Basic " ++ lit "Y2s6Y3M6" :=
    Option.some.inj (h1.symm.trans h3)
  have h5 : enc = lit "Y2s6Y3M6" := List.append_cancel_left h4
  subst h5
  revert h2
  decide

/-! ## The URL of a request -/

/-- Cutting at a byte that does not occur leaves the text whole. -/
theorem cut_not_mem (sep : Byte) (s : GoString) (h : sep ∉ s) : cut sep s = (s, [], false) := by
  induction s with
  | nil => rfl
  | cons c cs ih =>
    have h1 : c ≠ sep := fun e => h (by simp [e])
    have h2 : sep ∉ cs := fun e => h (by simp [e])
    simp [cut, h1, ih h2]

/-- A URL text without `?` and `#` has no query. -/
theorem parseURL_plain (locate : GoString → GoString) (url : GoString) (hq : ch '?' ∉ url)
    (hf : ch '#' ∉ url) : parseURL locate url = ⟨locate url, false, []⟩ := by
  simp [parseURL, cut_not_mem _ _ hq, cut_not_mem _ _ hf]

/-- C5, amended: when `base + "/wp-json/wc/v3/" + endpoint` holds neither `?`
nor `#`, the URL of the request handed to the client is the URL `NewRequest`
reads from exactly that text (so it is written as that text wherever
`NewRequest` writes a text back unchanged); its query string is the
`key=value` texts of the given parameters, each once, in some order, joined
by `&`, and nothing else; it is empty when there are no parameters. -/
theorem request_url {σ Data Record : Type} (L : Deps Data Record) (api : WooCommerceAPI σ)
    (method endpoint : GoString) (data : Option Data) (params : List (GoString × GoString))
    (req : Request)
    (hq : ch '?' ∉ api.url ++ lit "/wp-json/wc/v3/" ++ endpoint)
    (hf : ch '#' ∉ api.url ++ lit "/wp-json/wc/v3/" ++ endpoint)
    (h : api.buildRequest L method endpoint data params = .ok req) :
    req.URL.Location = L.Locate (api.url ++ lit "/wp-json/wc/v3/" ++ endpoint)
    ∧ (L.Locate (api.url ++ lit "/wp-json/wc/v3/" ++ endpoint)
          = api.url ++ lit "/wp-json/wc/v3/" ++ endpoint →
        req.URL.Location = api.url ++ lit "/wp-json/wc/v3/" ++ endpoint)
    ∧ req.URL.ForceQuery = false
    ∧ (∃ l : List (GoString × GoString),
        l.Perm params ∧ req.URL.RawQuery = joinAmp (l.map pairText))
    ∧ (params = [] → req.URL.RawQuery = []) := by
  obtain ⟨_, hl, hfq, hraw, _⟩ := buildRequest_ok L api method endpoint data params req h
  rw [parseURL_plain _ _ hq hf] at hl hfq hraw
  have hquery :
      URL.Query ⟨L.Locate (api.url ++ lit "/wp-json/wc/v3/" ++ endpoint), false, []⟩ = [] := by
    simp [URL.Query, splitAmp, parsePiece]
  rw [hquery] at hraw
  have hperm := pairs_foldl_Add params []
  have hnil : Values.pairs [] = [] := rfl
  rw [hnil, List.nil_append] at hperm
  have hempty : params = [] → req.URL.RawQuery = [] := by
    intro hp
    subst hp
    rw [hraw]
    rfl
  exact ⟨hl, fun hw => hl.trans hw, hfq, ⟨_, hperm, hraw⟩, hempty⟩

/-- C5, amended, at a concrete input: the request for page 3 with page size 2. -/
theorem request_url_witness :
    (mockRequest (lit "GET") (lit "products") (pageParams 2 3)).URL.Location
      = lit "https://example.com" ++ lit "/wp-json/wc/v3/" ++ lit "products"
    ∧ (mockRequest (lit "GET") (lit "products") (pageParams 2 3)).URL.ForceQuery = false
    ∧ (mockRequest (lit "GET") (lit "products") (pageParams 2 3)).URL.RawQuery
      = lit "page=3&per_page=2" :=
  have h := request_url mockDeps (mockAPI (constServer 200 [])) (lit "GET") (lit "products")
    none (pageParams 2 3) (mockRequest (lit "GET") (lit "products") (pageParams 2 3))
    (by decide) (by decide) rfl
  ⟨h.2.1 (by decide), h.2.2.1, by decide⟩

/-- C5 as stated fails: `Delete("products/7?force=true")` passes no
parameters, yet the query string of its request is `force=true`, not empty;
and `Get("products?status=draft", {page: 1})` sends `status=draft` next to the
given pair. -/
theorem request_url_counterexample :
    (∃ req : Request,
      (mockAPI (constServer 200 [])).buildRequest mockDeps (lit "DELETE")
        (lit "products/7?force=true") none [] = .ok req
      ∧ req.URL.RawQuery = lit "force=true" ∧ req.URL.RawQuery ≠ [])
    ∧ (∃ req : Request,
      (mockAPI (constServer 200 [])).buildRequest mockDeps (lit "GET")
        (lit "products?status=draft") none [(lit "page", lit "1")] = .ok req
      ∧ req.URL.RawQuery = lit "page=1&status=draft") :=
  ⟨⟨_, rfl, by decide, by decide⟩, ⟨_, rfl, by decide⟩⟩

end GoWooCommerceAPI
